import Mathlib

/-!
# Verification of the TrafficTool data-acquisition pipeline

A shallow embedding of the core of `src/trafficTool.py` (class `RoadTool`):
the time-window partition loop inside `query_traffic_volume_by_hour`, the
retrying transport `request`, the search-query builder
`query_traffic_registration_point_search`, the response-normalisation block of
`query_traffic_volume_by_hour`, the per-sensor accumulation across windows,
and the time-reindexing aggregator `get_traffic_volume_by_hour`.

Modelling conventions:
* Hour-aligned timestamps are modelled as natural numbers counting hours
  (the code steps time by `timedelta(hours=1)` and every claim below is
  about hour-aligned instants).
* Python `dict` is modelled as an association list with in-place update on
  an existing key and append for a fresh key, mirroring CPython's
  insertion-ordered dictionaries.  Subscripting a missing key is `none`
  (a `KeyError`).
* Traffic volumes are nonnegative integers (`Nat`), per the data model.
* Fallible code returns `Option`/`Except`; loops are translated with an
  explicit fuel argument equal to the number of remaining iterations so
  that every definition is executable and kernel-reducible.
-/

/-- Python `dict` subscript read: first binding of the key, `none` when the
key is absent (a `KeyError` in Python). -/
def dictLookup {K V : Type} [DecidableEq K] : List (K × V) → K → Option V
  | [], _ => none
  | (k', v') :: rest, k => if k' = k then some v' else dictLookup rest k

/-- Python `dict` subscript write: updates the binding in place when the key
is present (keeping its position, as CPython dictionaries do) and appends a
new binding otherwise. -/
def dictInsert {K V : Type} [DecidableEq K] : List (K × V) → K → V → List (K × V)
  | [], k, v => [(k, v)]
  | (k', v') :: rest, k, v =>
    if k' = k then (k', v) :: rest else (k', v') :: dictInsert rest k v

/-- The keys of a modelled Python `dict`, in insertion order. -/
def dictKeys {K V : Type} (d : List (K × V)) : List K :=
  d.map Prod.fst

/-!
## Time Window Partitioner

The `while t < stop` loop at lines 155-169 of `query_traffic_volume_by_hour`:
it walks forward one hour at a time, closing a window every time the
accumulated count `t_count` reaches the 99-hour query limit, and finally
appends the leftover window when `start_step != t`.  The fuel argument is
`stop - t`, exactly the number of iterations the Python loop performs.
-/

/-- State of the partition loop: returns the accumulated `divisions` list and
the final values of `start_step` and `t`. -/
def partitionAux (stop : Nat) :
    Nat → Nat → Nat → Nat → List (Nat × Nat) → List (Nat × Nat) × Nat × Nat
  | 0, t, startStep, _, acc => (acc, startStep, t)
  | fuel + 1, t, startStep, tCount, acc =>
    if t < stop then
      if 99 ≤ tCount then
        partitionAux stop fuel (t + 1) t 1 (acc ++ [(startStep, t)])
      else
        partitionAux stop fuel (t + 1) startStep (tCount + 1) acc
    else (acc, startStep, t)

/-- The list of `(start_step, stop_step)` windows computed by
`query_traffic_volume_by_hour` before it starts issuing requests. -/
def queryDivisions (start stop : Nat) : List (Nat × Nat) :=
  match partitionAux stop (stop - start) start start 0 [] with
  | (ds, startStep, t) => if startStep ≠ t then ds ++ [(startStep, t)] else ds

/-- `chainFromB a ws b` holds when the windows `ws` are contiguous half-open
intervals running from instant `a` to instant `b`: each window starts where
the previous one stopped. -/
def chainFromB : Nat → List (Nat × Nat) → Nat → Bool
  | a, [], b => a == b
  | a, (p, q) :: ws, b => (p == a) && chainFromB q ws b

/-- Sum of the spans of a list of windows. -/
def spanSum (ws : List (Nat × Nat)) : Nat :=
  (ws.map fun w => w.2 - w.1).sum

/-!
## Aggregator data model

`get_traffic_volume_by_hour` (lines 247-281) re-indexes the per-sensor series
produced by `query_traffic_volume_by_hour` into a dense hour grid.  Sensors
carry an id, a display name and coordinates; the coordinate floats are only
copied, never computed with, so they are modelled as integers.
-/

/-- One entry of the `trafficRegistrationPoints` list handed to
`get_traffic_volume_by_hour`. -/
structure Sensor where
  id : String
  name : String
  lat : Int
  lon : Int
deriving DecidableEq

/-- One normalized hourly volume record of the per-sensor series (hour
timestamps as hour counts, volume a nonnegative integer, coverage a
percentage). -/
structure VolumeRecord where
  start : Nat
  stop : Nat
  volume : Nat
  coverage : Nat
deriving DecidableEq

/-- The `{volume, lat, lon}` value stored per hour and sensor in the
time-indexed aggregate. -/
structure CellData where
  volume : Nat
  lat : Int
  lon : Int
deriving DecidableEq

/-- The accumulated series: sensor id mapped to its list of records. -/
abbrev Series := List (String × List VolumeRecord)

/-- The time-indexed aggregate `sortedTrafficVolumeByHour`. -/
abbrev Agg := List (Nat × List (String × CellData))

/-- The assignment `sortedTrafficVolumeByHour[j["start"]][id] = {...}`:
subscripting a missing hour key is a `KeyError` (`none`); otherwise the inner
dict is updated in place. -/
def aggSetItem (agg : Agg) (hr : Nat) (sid : String) (c : CellData) : Option Agg :=
  match dictLookup agg hr with
  | none => none
  | some inner => some (dictInsert agg hr (dictInsert inner sid c))

/-- The inner `for j in trafficVolumeByHour[id]` loop: inserts every record of
one sensor at its hour and folds the running maximum. -/
def insertSensorRecords (st : Agg × Nat) (sen : Sensor) :
    List VolumeRecord → Option (Agg × Nat)
  | [] => some st
  | j :: rest =>
    match aggSetItem st.1 j.start sen.id ⟨j.volume, sen.lat, sen.lon⟩ with
    | none => none
    | some agg2 => insertSensorRecords (agg2, max st.2 j.volume) sen rest

/-- The outer `for i in trafficRegistrationPoints` loop of
`get_traffic_volume_by_hour`: sensors absent from the series are skipped. -/
def buildTimeIndex (series : Series) :
    List Sensor → Agg × Nat → Option (Agg × Nat)
  | [], st => some st
  | sen :: rest, st =>
    match dictLookup series sen.id with
    | none => buildTimeIndex series rest st
    | some recs =>
      match insertSensorRecords st sen recs with
      | none => none
      | some st2 => buildTimeIndex series rest st2

/-- The `while t < stop` loop building the dense hour grid with one empty
inner dict per hour; fuel is the number of remaining iterations. -/
def hourGridLoop (stop : Nat) : Nat → Nat → Agg → Agg
  | 0, _, acc => acc
  | fuel + 1, t, acc =>
    if t < stop then hourGridLoop stop fuel (t + 1) (dictInsert acc t []) else acc

/-- `get_traffic_volume_by_hour`, with the accumulated series passed in
directly (in the source it is fetched by `query_traffic_volume_by_hour`) and
`start`/`stop` already truncated to hour boundaries.  Returns the pair
`(sortedTrafficVolumeByHour, max_volume)`, or `none` when the Python code
would die with a `KeyError` (a record whose hour lies outside the grid). -/
def get_traffic_volume_by_hour (sensors : List Sensor) (series : Series)
    (start stop : Nat) : Option (Agg × Nat) :=
  buildTimeIndex series sensors (hourGridLoop stop (stop - start) start [], 0)

/-- The records accumulated for one sensor id (`[]` when the id is absent,
matching the skipped branch). -/
def recordsOf (series : Series) (sid : String) : List VolumeRecord :=
  (dictLookup series sid).getD []

/-- Every record of the series starts at an hour inside `[start, stop)`. -/
def seriesInRange (series : Series) (start stop : Nat) : Prop :=
  ∀ p ∈ series, ∀ j ∈ p.2, start ≤ j.start ∧ j.start < stop

/-- No sensor holds two records for the same hour (the Partitioner's
no-overlap/no-duplicate precondition). -/
def seriesNodupHours (series : Series) : Prop :=
  ∀ p ∈ series, p.2.Pairwise (fun j1 j2 => j1.start ≠ j2.start)

/-- The volumes of all records the aggregation loop inserts, in processing
order: for each sensor of the list in order, that sensor's accumulated
records. -/
def insertedVolumes (sensors : List Sensor) (series : Series) : List Nat :=
  sensors.foldr (fun sen acc => (recordsOf series sen.id).map VolumeRecord.volume ++ acc) []

instance decSeriesInRange (series : Series) (start stop : Nat) :
    Decidable (seriesInRange series start stop) := by
  unfold seriesInRange
  exact inferInstance

instance decSeriesNodupHours (series : Series) :
    Decidable (seriesNodupHours series) := by
  unfold seriesNodupHours
  exact inferInstance

/-!
## Transport Layer

`RoadTool.request` (lines 36-63): a `while attempts > 0` loop around
`requests.post(..., timeout=5)`.  A `ReadTimeout` decrements `attempts` and
retries; any other exception propagates at once; a received response breaks
the loop.  After the loop, exhausted attempts raise a timeout error, and a
non-200 status raises a `ConnectionError` carrying the status code.  The
network is modelled as an oracle giving the outcome of each attempt.
-/

/-- What one `requests.post` attempt does. -/
inductive AttemptOutcome where
  | readTimeout
  | otherFailure (msg : String)
  | ok (status : Nat)
deriving DecidableEq

/-- How `request` can fail. -/
inductive RequestError where
  | timeout
  | statusError (code : Nat)
  | other (msg : String)
deriving DecidableEq

/-- The retry loop plus the post-loop checks of `request`.  `made` counts the
attempts already issued; the result pairs the total number of attempts issued
with the outcome. -/
def requestAux (oracle : Nat → AttemptOutcome) (made : Nat) :
    Nat → Nat × Except RequestError Nat
  | 0 => (made, Except.error RequestError.timeout)
  | attempts + 1 =>
    match oracle made with
    | AttemptOutcome.readTimeout => requestAux oracle (made + 1) attempts
    | AttemptOutcome.otherFailure msg => (made + 1, Except.error (RequestError.other msg))
    | AttemptOutcome.ok status =>
      if status ≠ 200 then (made + 1, Except.error (RequestError.statusError status))
      else (made + 1, Except.ok status)

/-- `RoadTool.request`: up to 10 attempts against the oracle. -/
def request (oracle : Nat → AttemptOutcome) : Nat × Except RequestError Nat :=
  requestAux oracle 0 10

/-!
## Query Builder

`query_traffic_registration_point_search` (lines 65-135): five optional
filter arguments; each one that is not `None` appends one clause string to
`searchQuery`, the clauses are joined with `", "` and spliced into the fixed
GraphQL request template.  Python `str.upper`/`str.lower` are modelled
character-wise (the recognised enum values are ASCII).
-/

/-- Python `str.upper()` on ASCII text. -/
def pyUpper (s : String) : String := String.mk (s.data.map Char.toUpper)

/-- Python `str.lower()` on ASCII text. -/
def pyLower (s : String) : String := String.mk (s.data.map Char.toLower)

/-- One `if arg is not None: searchQuery.append(...)` block. -/
def optClause {A : Type} (o : Option A) (f : A → String) : List String :=
  match o with
  | some x => [f x]
  | none => []

/-- The `roadCategoryIds` clause. -/
def roadCategoryClause (l : List String) : String :=
  "roadCategoryIds: [" ++ String.intercalate ", " l ++ "]"

/-- The `countyNumbers` clause (`str(i)` on each number). -/
def countyNumbersClause (l : List Int) : String :=
  "countyNumbers: [" ++ String.intercalate ", " (l.map Int.repr) ++ "]"

/-- The `isOperational` clause: `str(bool).lower()`. -/
def isOperationalClause (b : Bool) : String :=
  "isOperational: " ++ pyLower (if b then "True" else "False")

/-- The `trafficType` clause: `str(x).upper()`. -/
def trafficTypeClause (s : String) : String :=
  "trafficType: " ++ pyUpper s

/-- The `registrationFrequency` clause: `str(x).upper()`. -/
def registrationFrequencyClause (s : String) : String :=
  "registrationFrequency: " ++ pyUpper s

/-- The `searchQuery` clause list, in the fixed order the source appends. -/
def searchClauses (roadCategoryIds : Option (List String))
    (countyNumbers : Option (List Int)) (isOperational : Option Bool)
    (trafficType registrationFrequency : Option String) : List String :=
  optClause roadCategoryIds roadCategoryClause ++
    optClause countyNumbers countyNumbersClause ++
    optClause isOperational isOperationalClause ++
    optClause trafficType trafficTypeClause ++
    optClause registrationFrequency registrationFrequencyClause

/-- `query_traffic_registration_point_search`: joins the clauses with `", "`
(the empty join when no filter is supplied) and formats them into the fixed
request template. -/
def query_traffic_registration_point_search (roadCategoryIds : Option (List String))
    (countyNumbers : Option (List Int)) (isOperational : Option Bool)
    (trafficType registrationFrequency : Option String) : String :=
  let searchQuery := String.intercalate ", "
    (searchClauses roadCategoryIds countyNumbers isOperational trafficType
      registrationFrequency)
  "\x7b\"query\":\"\x7btrafficRegistrationPoints(searchQuery:\x7b" ++ searchQuery ++
    "\x7d)\x7bid name location\x7bcoordinates\x7blatLon\x7blat lon\x7d\x7d\x7d\x7d\x7d\", \"variables\": null\x7d"

/-!
## Time serialization

`datetime_to_string` formats a naive datetime as
`"%Y-%m-%dT%H:%M:%S+02:00"` (zero-padded numeric fields) and
`string_to_datetime` strips the final six characters (`string[:-6]`) and
parses `"%Y-%m-%dT%H:%M:%S"` the way CPython `strptime` does: `%Y` matches
exactly four digits, the other fields one or two digits (greedily), and the
parsed values are validated by the `datetime` constructor.  Microseconds are
always zero in this pipeline (hour-aligned instants), so the model carries
none.
-/

/-- A naive Python `datetime` (microsecond 0). -/
structure PyDateTime where
  year : Nat
  month : Nat
  day : Nat
  hour : Nat
  minute : Nat
  second : Nat
deriving DecidableEq

/-- Gregorian leap-year rule used by `datetime`. -/
def isLeapYear (y : Nat) : Bool :=
  (y % 4 == 0 && y % 100 != 0) || y % 400 == 0

/-- Days in a month, as enforced by the `datetime` constructor. -/
def daysInMonth (y m : Nat) : Nat :=
  if m == 2 then (if isLeapYear y then 29 else 28)
  else if m == 4 || m == 6 || m == 9 || m == 11 then 30 else 31

/-- The invariant every constructed Python `datetime` satisfies
(`MINYEAR = 1`, `MAXYEAR = 9999`, calendar-valid day, sane clock fields). -/
def validDateTime (d : PyDateTime) : Bool :=
  1 ≤ d.year && d.year ≤ 9999 && 1 ≤ d.month && d.month ≤ 12 && 1 ≤ d.day &&
    d.day ≤ daysInMonth d.year d.month && d.hour ≤ 23 && d.minute ≤ 59 && d.second ≤ 59

/-- The decimal digit character for `n % 10`-style values. -/
def digitChar (n : Nat) : Char :=
  Char.ofNat (48 + n)

/-- Zero-padded fixed-width decimal rendering (the `strftime` numeric
directives; every formatted field fits its width thanks to the `datetime`
invariant). -/
def padDigits : Nat → Nat → List Char
  | 0, _ => []
  | w + 1, n => padDigits w (n / 10) ++ [digitChar (n % 10)]

/-- Is `c` an ASCII decimal digit (the `\d` of the `strptime` regex)? -/
def isDigitChar (c : Char) : Bool :=
  48 ≤ c.toNat && c.toNat ≤ 57

/-- Value of a digit character. -/
def digitVal (c : Char) : Nat :=
  c.toNat - 48

/-- `strptime` `%Y`: exactly `w` digits, accumulated left to right. -/
def parseFixed : Nat → Nat → List Char → Option (Nat × List Char)
  | 0, acc, cs => some (acc, cs)
  | w + 1, acc, cs =>
    match cs with
    | [] => none
    | c :: rest => if isDigitChar c then parseFixed w (acc * 10 + digitVal c) rest else none

/-- `strptime` `%m`/`%d`/`%H`/`%M`/`%S`: one or two digits, greedy. -/
def parse1or2 : List Char → Option (Nat × List Char)
  | [] => none
  | c :: rest =>
    if isDigitChar c then
      match rest with
      | c2 :: rest2 =>
        if isDigitChar c2 then some (digitVal c * 10 + digitVal c2, rest2)
        else some (digitVal c, rest)
      | [] => some (digitVal c, [])
    else none

/-- A literal character of the format string. -/
def expectChar (c : Char) : List Char → Option (List Char)
  | [] => none
  | c2 :: rest => if c2 = c then some rest else none

/-- `datetime.strptime(·, "%Y-%m-%dT%H:%M:%S")`: parse the six fields,
require the whole string to be consumed, validate via the `datetime`
constructor. -/
def parseDateTimeChars (cs : List Char) : Option PyDateTime :=
  match parseFixed 4 0 cs with
  | none => none
  | some (y, cs1) =>
    match expectChar '-' cs1 with
    | none => none
    | some cs2 =>
      match parse1or2 cs2 with
      | none => none
      | some (mo, cs3) =>
        match expectChar '-' cs3 with
        | none => none
        | some cs4 =>
          match parse1or2 cs4 with
          | none => none
          | some (da, cs5) =>
            match expectChar 'T' cs5 with
            | none => none
            | some cs6 =>
              match parse1or2 cs6 with
              | none => none
              | some (hh, cs7) =>
                match expectChar ':' cs7 with
                | none => none
                | some cs8 =>
                  match parse1or2 cs8 with
                  | none => none
                  | some (mi, cs9) =>
                    match expectChar ':' cs9 with
                    | none => none
                    | some cs10 =>
                      match parse1or2 cs10 with
                      | none => none
                      | some (ss, cs11) =>
                        match cs11 with
                        | [] =>
                          if validDateTime ⟨y, mo, da, hh, mi, ss⟩ then
                            some ⟨y, mo, da, hh, mi, ss⟩
                          else none
                        | _ :: _ => none

/-- `RoadTool.datetime_to_string`: `strftime("%Y-%m-%dT%H:%M:%S+02:00")`. -/
def datetime_to_string (d : PyDateTime) : String :=
  String.mk (padDigits 4 d.year ++ '-' :: (padDigits 2 d.month ++ '-' ::
    (padDigits 2 d.day ++ 'T' :: (padDigits 2 d.hour ++ ':' ::
      (padDigits 2 d.minute ++ ':' :: (padDigits 2 d.second ++ "+02:00".data))))))

/-- `RoadTool.string_to_datetime`: drop the final six characters
(`string[:-6]`) and parse `"%Y-%m-%dT%H:%M:%S"`. -/
def string_to_datetime (s : String) : Option PyDateTime :=
  parseDateTimeChars (s.data.take (s.data.length - 6))

/-!
## Response Normalizer and per-window accumulation

The `try/except TypeError` block at lines 189-208 of
`query_traffic_volume_by_hour`.  JSON payloads are modelled by `Json`;
Python subscripting of a non-dict raises `TypeError`, subscripting a dict
with a missing key raises `KeyError` (which the source does **not** catch),
and `string_to_datetime` on an unparseable string raises `ValueError`
(also uncaught).  Iterating a non-iterable raises `TypeError`; iterating a
dict yields its keys and iterating a string yields its characters.
-/

/-- A JSON value as decoded by `response.json()`. -/
inductive Json where
  | null
  | num (n : Int)
  | str (s : String)
  | arr (elems : List Json)
  | obj (fields : List (String × Json))

/-- The Python exceptions relevant to the normalisation block. -/
inductive PyError where
  | typeError
  | keyError (k : String)
  | valueError
deriving DecidableEq

/-- Python `value[key]` with a string key. -/
def pyIndexStr : Json → String → Except PyError Json
  | Json.obj fields, k =>
    match dictLookup fields k with
    | some v => Except.ok v
    | none => Except.error (PyError.keyError k)
  | _, _ => Except.error PyError.typeError

/-- Python `for j in value`: lists iterate elements, dicts iterate keys,
strings iterate characters, everything else raises `TypeError`. -/
def pyToList : Json → Except PyError (List Json)
  | Json.arr elems => Except.ok elems
  | Json.obj fields => Except.ok (fields.map (fun p => Json.str p.1))
  | Json.str s => Except.ok (s.data.map (fun c => Json.str (String.mk [c])))
  | _ => Except.error PyError.typeError

/-- `string_to_datetime(x)` on a JSON value: a non-string raises `TypeError`
(unsubscriptable or rejected by `strptime`), an unparseable string raises
`ValueError`. -/
def jsonToDatetime : Json → Except PyError PyDateTime
  | Json.str s =>
    match string_to_datetime s with
    | some dt => Except.ok dt
    | none => Except.error PyError.valueError
  | _ => Except.error PyError.typeError

/-- One normalized edge `element` as built by the source: parsed `from`/`to`
datetimes plus the raw `volume` and `coverage` JSON values. -/
structure RawRecord where
  start : PyDateTime
  stop : PyDateTime
  volume : Json
  coverage : Json

/-- The accumulated `trafficVolumeByHour` dictionary. -/
abbrev RawSeries := List (String × List RawRecord)

/-- The body of the `for j in ...edges` loop: builds one `element` dict,
evaluating the subscripts in the source's order. -/
def buildElement (j : Json) : Except PyError RawRecord := do
  let node1 ← pyIndexStr j "node"
  let fromJ ← pyIndexStr node1 "from"
  let startDt ← jsonToDatetime fromJ
  let node2 ← pyIndexStr j "node"
  let toJ ← pyIndexStr node2 "to"
  let stopDt ← jsonToDatetime toJ
  let node3 ← pyIndexStr j "node"
  let total1 ← pyIndexStr node3 "total"
  let vn ← pyIndexStr total1 "volumeNumbers"
  let vol ← pyIndexStr vn "volume"
  let node4 ← pyIndexStr j "node"
  let total2 ← pyIndexStr node4 "total"
  let cov1 ← pyIndexStr total2 "coverage"
  let cov ← pyIndexStr cov1 "percentage"
  Except.ok ⟨startDt, stopDt, vol, cov⟩

/-- The `temp_list` construction: walk
`response.json()["data"]["trafficData"]["volume"]["byHour"]["edges"]` and
normalize every edge. -/
def collectEdges (resp : Json) : Except PyError (List RawRecord) := do
  let d1 ← pyIndexStr resp "data"
  let d2 ← pyIndexStr d1 "trafficData"
  let d3 ← pyIndexStr d2 "volume"
  let d4 ← pyIndexStr d3 "byHour"
  let edges ← pyIndexStr d4 "edges"
  let items ← pyToList edges
  items.mapM buildElement

/-- The whole `try/except TypeError/else` block for one sensor and one
window response: a `TypeError` is swallowed (`pass`, no `else`, the series
is untouched), any other exception propagates, and on success the records —
possibly zero of them — are appended to `trafficVolumeByHour[sid]`,
creating the entry if absent. -/
def processResponse (series : RawSeries) (sid : String) (resp : Json) :
    Except PyError RawSeries :=
  match collectEdges resp with
  | Except.error PyError.typeError => Except.ok series
  | Except.error e => Except.error e
  | Except.ok temp =>
    Except.ok
      (match dictLookup series sid with
        | some old => dictInsert series sid (old ++ temp)
        | none => dictInsert series sid temp)

/-- The inner `for n, i in enumerate(trafficRegistrationPoints)` loop of one
window, with that window's responses given by `respOf`. -/
def accumulateWindow (respOf : String → Json) :
    List String → RawSeries → Except PyError RawSeries
  | [], series => Except.ok series
  | sid :: rest, series =>
    match processResponse series sid (respOf sid) with
    | Except.error e => Except.error e
    | Except.ok series2 => accumulateWindow respOf rest series2

/-- The outer `for m, (start_step, stop_step) in enumerate(divisions)` loop:
window `m`'s response for sensor `sid` is `respOf m sid`. -/
def queryLoopAux (respOf : Nat → String → Json) (sensors : List String) :
    Nat → Nat → RawSeries → Except PyError RawSeries
  | _, 0, series => Except.ok series
  | m, k + 1, series =>
    match accumulateWindow (respOf m) sensors series with
    | Except.error e => Except.error e
    | Except.ok series2 => queryLoopAux respOf sensors (m + 1) k series2

/-- The accumulation phase of `query_traffic_volume_by_hour` over
`numWindows` windows, starting from the empty dictionary. -/
def queryVolumeLoop (respOf : Nat → String → Json) (sensors : List String)
    (numWindows : Nat) : Except PyError RawSeries :=
  queryLoopAux respOf sensors 0 numWindows []

/-- A response whose `trafficData` is JSON `null` — the service's "no data"
shape; subscripting it raises the caught `TypeError`. -/
def nullTrafficDataResp : Json :=
  Json.obj [("data", Json.obj [("trafficData", Json.null)])]

/-- Wraps an `edges` value in the full
`data → trafficData → volume → byHour → edges` nesting. -/
def wrapVolumeResp (edges : Json) : Json :=
  Json.obj [("data", Json.obj [("trafficData", Json.obj [("volume",
    Json.obj [("byHour", Json.obj [("edges", edges)])])])])]

/-- One well-formed `node` payload with volume 0 and coverage 100. -/
def volumeZeroNode : Json :=
  Json.obj [("from", Json.str "2019-10-24T00:00:00+02:00"),
    ("to", Json.str "2019-10-24T01:00:00+02:00"),
    ("total", Json.obj [("volumeNumbers", Json.obj [("volume", Json.num 0)]),
      ("coverage", Json.obj [("percentage", Json.num 100)])])]

/-- A well-formed response with one edge of volume 0. -/
def volumeZeroResp : Json :=
  wrapVolumeResp (Json.arr [Json.obj [("node", volumeZeroNode)]])

/-- The record normalized from `volumeZeroResp`. -/
def volumeZeroRecord : RawRecord :=
  ⟨⟨2019, 10, 24, 0, 0, 0⟩, ⟨2019, 10, 24, 1, 0, 0⟩, Json.num 0, Json.num 100⟩

/-- A well-formed response whose `edges` list is empty. -/
def emptyEdgesResp : Json :=
  wrapVolumeResp (Json.arr [])

/-!
## Theorems
-/
theorem chainFromB_append_last (c : Nat) :
    ∀ (ws : List (Nat × Nat)) (a b : Nat), chainFromB a ws b = true →
      chainFromB a (ws ++ [(b, c)]) c = true := by
  intro ws
  induction ws with
  | nil =>
    intro a b h
    simp only [chainFromB, beq_iff_eq] at h
    subst h
    simp [chainFromB]
  | cons w rest ih =>
    intro a b h
    obtain ⟨p, q⟩ := w
    simp only [chainFromB, Bool.and_eq_true, beq_iff_eq] at h ⊢
    exact ⟨h.1, ih q b h.2⟩

theorem chainFromB_spanSum :
    ∀ (ws : List (Nat × Nat)) (a b : Nat), chainFromB a ws b = true →
      (∀ w ∈ ws, w.1 ≤ w.2) → a ≤ b ∧ spanSum ws = b - a := by
  intro ws
  induction ws with
  | nil =>
    intro a b h _
    simp only [chainFromB, beq_iff_eq] at h
    subst h
    simp [spanSum]
  | cons w rest ih =>
    intro a b h hspans
    obtain ⟨p, q⟩ := w
    simp only [chainFromB, Bool.and_eq_true, beq_iff_eq] at h
    obtain ⟨rfl, hchain⟩ := h
    have hpq : p ≤ q := hspans (p, q) (by simp)
    have hrest := ih q b hchain (fun w hw => hspans w (by simp [hw]))
    have : spanSum ((p, q) :: rest) = (q - p) + spanSum rest := by
      simp [spanSum]
    omega

/-- Invariant-carrying specification of the partition loop.  Starting from a
state where `tCount = t - startStep ≤ 99`, the loop runs until `t = stop`,
appends a chain of positive windows of span at most `99` onto `acc`, and
leaves a final open window of span at most `99`. -/
theorem partitionAux_spec (stop : Nat) :
    ∀ (fuel t startStep tCount : Nat) (acc : List (Nat × Nat)),
      stop = t + fuel → startStep ≤ t → tCount = t - startStep → tCount ≤ 99 →
      ∃ ws ss,
        partitionAux stop fuel t startStep tCount acc = (acc ++ ws, ss, stop) ∧
        chainFromB startStep ws ss = true ∧
        (∀ w ∈ ws, w.1 < w.2 ∧ w.2 - w.1 ≤ 99) ∧
        ss ≤ stop ∧ stop - ss ≤ 99 := by
  intro fuel
  induction fuel with
  | zero =>
    intro t startStep tCount acc hstop hle hcount hbound
    refine ⟨[], startStep, ?_, ?_, ?_, ?_, ?_⟩
    · simp [partitionAux]
      omega
    · simp [chainFromB]
    · simp
    · omega
    · omega
  | succ fuel ih =>
    intro t startStep tCount acc hstop hle hcount hbound
    have ht : t < stop := by omega
    by_cases hclose : 99 ≤ tCount
    · have hcount99 : tCount = 99 := by omega
      have hstep := ih (t + 1) t 1 (acc ++ [(startStep, t)])
        (by omega) (by omega) (by omega) (by omega)
      obtain ⟨ws, ss, heq, hchain, hspans, hss, hlast⟩ := hstep
      refine ⟨(startStep, t) :: ws, ss, ?_, ?_, ?_, hss, hlast⟩
      · simp only [partitionAux, if_pos ht, if_pos hclose]
        rw [heq]
        simp
      · simp [chainFromB, hchain]
      · intro w hw
        rcases List.mem_cons.mp hw with hw | hw
        · subst hw
          constructor <;> omega
        · exact hspans w hw
    · have hstep := ih (t + 1) startStep (tCount + 1) acc
        (by omega) (by omega) (by omega) (by omega)
      obtain ⟨ws, ss, heq, hchain, hspans, hss, hlast⟩ := hstep
      refine ⟨ws, ss, ?_, hchain, hspans, hss, hlast⟩
      simp only [partitionAux, if_pos ht, if_neg hclose]
      exact heq

/-- **C1.** For hour-aligned `start ≤ stop`, the time-window partition
embedded in `query_traffic_volume_by_hour` returns an ordered contiguous
chain of half-open windows running exactly from `start` to `stop` (so
consecutive windows share exactly their boundary instant and no timestamp is
double counted), every window is nonempty with span at most 99 hours, the
spans sum exactly to `stop - start`, and the list is empty when
`start = stop`. -/
theorem C1_partition_windows (start stop : Nat) (h : start ≤ stop) :
    chainFromB start (queryDivisions start stop) stop = true ∧
    (∀ w ∈ queryDivisions start stop, w.1 < w.2 ∧ w.2 - w.1 ≤ 99) ∧
    spanSum (queryDivisions start stop) = stop - start ∧
    (start = stop → queryDivisions start stop = []) := by
  have hempty : start = stop → queryDivisions start stop = [] := by
    intro hstart
    subst hstart
    simp [queryDivisions, Nat.sub_self, partitionAux]
  obtain ⟨ws, ss, heq, hchain, hspans, hss, hlast⟩ :=
    partitionAux_spec stop (stop - start) start start 0 [] (by omega)
      (by omega) (by omega) (by omega)
  have hdiv : queryDivisions start stop =
      if ss ≠ stop then ws ++ [(ss, stop)] else ws := by
    unfold queryDivisions
    rw [heq]
    simp
  have hmain : chainFromB start (queryDivisions start stop) stop = true ∧
      (∀ w ∈ queryDivisions start stop, w.1 < w.2 ∧ w.2 - w.1 ≤ 99) ∧
      spanSum (queryDivisions start stop) = stop - start := by
    by_cases hfin : ss = stop
    · rw [hfin] at hchain
      rw [hdiv]
      simp only [ne_eq, hfin, not_true_eq_false, if_false]
      refine ⟨hchain, hspans, ?_⟩
      exact (chainFromB_spanSum ws start stop hchain
        (fun w hw => le_of_lt (hspans w hw).1)).2
    · rw [hdiv]
      simp only [ne_eq, hfin, not_false_eq_true, if_true]
      have hchain2 := chainFromB_append_last stop ws start ss hchain
      have hspans2 : ∀ w ∈ ws ++ [(ss, stop)], w.1 < w.2 ∧ w.2 - w.1 ≤ 99 := by
        intro w hw
        rcases List.mem_append.mp hw with hw | hw
        · exact hspans w hw
        · simp at hw
          subst hw
          constructor <;> omega
      refine ⟨hchain2, hspans2, ?_⟩
      exact (chainFromB_spanSum (ws ++ [(ss, stop)]) start stop hchain2
        (fun w hw => le_of_lt (hspans2 w hw).1)).2
  exact ⟨hmain.1, hmain.2.1, hmain.2.2, hempty⟩

/-- Witness for C1: the 150-hour range of the spec example splits into
`[0,99)` and `[99,150)`, and an empty range yields no windows. -/
theorem C1_partition_windows_witness :
    (0 ≤ 150 ∧
      chainFromB 0 (queryDivisions 0 150) 150 = true ∧
      (∀ w ∈ queryDivisions 0 150, w.1 < w.2 ∧ w.2 - w.1 ≤ 99) ∧
      spanSum (queryDivisions 0 150) = 150 - 0 ∧
      (0 = 150 → queryDivisions 0 150 = [])) ∧
    queryDivisions 0 150 = [(0, 99), (99, 150)] ∧
    queryDivisions 7 7 = [] :=
  ⟨⟨by omega, C1_partition_windows 0 150 (by omega)⟩, by decide, by decide⟩

/-!
## Dictionary lemmas
-/

theorem dictLookup_isSome_iff {K V : Type} [DecidableEq K] :
    ∀ (d : List (K × V)) (k : K), (dictLookup d k).isSome ↔ k ∈ dictKeys d := by
  intro d
  induction d with
  | nil => intro k; simp [dictLookup, dictKeys]
  | cons p rest ih =>
    intro k
    obtain ⟨k', v'⟩ := p
    by_cases hk : k' = k
    · subst hk
      simp [dictLookup, dictKeys]
    · simp [dictLookup, hk, dictKeys, ih k]
      intro hkk
      exact absurd hkk.symm hk

theorem dictLookup_eq_none_of_not_mem {K V : Type} [DecidableEq K]
    (d : List (K × V)) (k : K) (h : k ∉ dictKeys d) : dictLookup d k = none := by
  cases hl : dictLookup d k with
  | none => rfl
  | some v =>
    exact absurd ((dictLookup_isSome_iff d k).mp (by simp [hl])) h

theorem dictLookup_mem {K V : Type} [DecidableEq K] :
    ∀ (d : List (K × V)) (k : K) (v : V), dictLookup d k = some v → (k, v) ∈ d := by
  intro d
  induction d with
  | nil => intro k v h; simp [dictLookup] at h
  | cons p rest ih =>
    intro k v h
    obtain ⟨k', v'⟩ := p
    by_cases hk : k' = k
    · subst hk
      simp [dictLookup] at h
      simp [h]
    · simp [dictLookup, hk] at h
      exact List.mem_cons_of_mem _ (ih k v h)

theorem dictKeys_insert_of_mem {K V : Type} [DecidableEq K] :
    ∀ (d : List (K × V)) (k : K) (v : V), k ∈ dictKeys d →
      dictKeys (dictInsert d k v) = dictKeys d := by
  intro d
  induction d with
  | nil => intro k v h; simp [dictKeys] at h
  | cons p rest ih =>
    intro k v h
    obtain ⟨k', v'⟩ := p
    by_cases hk : k' = k
    · simp [dictInsert, hk, dictKeys]
    · simp only [dictKeys, List.map_cons] at h
      rcases List.mem_cons.mp h with h | h
      · exact absurd h.symm hk
      · have hrec := ih k v h
        simp only [dictKeys] at hrec
        simp [dictInsert, hk, dictKeys, hrec]

theorem dictKeys_insert_of_not_mem {K V : Type} [DecidableEq K] :
    ∀ (d : List (K × V)) (k : K) (v : V), k ∉ dictKeys d →
      dictKeys (dictInsert d k v) = dictKeys d ++ [k] := by
  intro d
  induction d with
  | nil => intro k v _; simp [dictInsert, dictKeys]
  | cons p rest ih =>
    intro k v h
    obtain ⟨k', v'⟩ := p
    simp only [dictKeys, List.map_cons, List.mem_cons] at h
    push_neg at h
    have hk : k' ≠ k := fun hkk => h.1 hkk.symm
    have hrec := ih k v h.2
    simp only [dictKeys] at hrec
    simp [dictInsert, hk, dictKeys, hrec]

theorem dictLookup_insert_ne {K V : Type} [DecidableEq K] :
    ∀ (d : List (K × V)) (k k2 : K) (v : V), k ≠ k2 →
      dictLookup (dictInsert d k v) k2 = dictLookup d k2 := by
  intro d
  induction d with
  | nil => intro k k2 v h; simp [dictInsert, dictLookup, h]
  | cons p rest ih =>
    intro k k2 v h
    obtain ⟨k', v'⟩ := p
    by_cases hk : k' = k
    · subst hk
      have : k' ≠ k2 := h
      simp [dictInsert, dictLookup, this]
    · simp [dictInsert, hk, dictLookup, ih k k2 v h]

theorem dictInsert_comm {K V : Type} [DecidableEq K] :
    ∀ (d : List (K × V)) (k1 k2 : K) (v1 v2 : V), k1 ≠ k2 → k1 ∈ dictKeys d →
      dictInsert (dictInsert d k1 v1) k2 v2 = dictInsert (dictInsert d k2 v2) k1 v1 := by
  intro d
  induction d with
  | nil => intro k1 k2 v1 v2 _ h; simp [dictKeys] at h
  | cons p rest ih =>
    intro k1 k2 v1 v2 hne h
    obtain ⟨k', v'⟩ := p
    by_cases h1 : k' = k1
    · subst h1
      have h2 : k' ≠ k2 := hne
      simp [dictInsert, h2]
    · by_cases h2 : k' = k2
      · subst h2
        simp [dictInsert, h1]
      · simp only [dictKeys, List.map_cons, List.mem_cons] at h
        rcases h with h | h
        · exact absurd h.symm h1
        · simp [dictInsert, h1, h2, ih k1 k2 v1 v2 hne h]

/-!
## Aggregator lemmas
-/

theorem hourGridLoop_keys (stop : Nat) :
    ∀ (fuel t : Nat) (acc : Agg), fuel = stop - t → (∀ k ∈ dictKeys acc, k < t) →
      dictKeys (hourGridLoop stop fuel t acc) = dictKeys acc ++ List.range' t fuel := by
  intro fuel
  induction fuel with
  | zero => intro t acc _ _; simp [hourGridLoop]
  | succ fuel ih =>
    intro t acc hfuel hbound
    have ht : t < stop := by omega
    have hnot : t ∉ dictKeys acc := fun hmem => absurd (hbound t hmem) (by omega)
    have hkeys := dictKeys_insert_of_not_mem acc t ([] : List (String × CellData)) hnot
    have hstep := ih (t + 1) (dictInsert acc t []) (by omega)
      (by
        intro k hk
        rw [hkeys] at hk
        rcases List.mem_append.mp hk with hk | hk
        · exact Nat.lt_succ_of_lt (hbound k hk)
        · simp at hk
          omega)
    simp only [hourGridLoop, if_pos ht]
    rw [hstep, hkeys]
    simp [List.range']

theorem aggSetItem_spec (agg : Agg) (hr : Nat) (sid : String) (c : CellData)
    (h : hr ∈ dictKeys agg) :
    ∃ agg2, aggSetItem agg hr sid c = some agg2 ∧ dictKeys agg2 = dictKeys agg := by
  have hsome := (dictLookup_isSome_iff agg hr).mpr h
  cases hl : dictLookup agg hr with
  | none => rw [hl] at hsome; simp at hsome
  | some inner =>
    exact ⟨dictInsert agg hr (dictInsert inner sid c), by simp [aggSetItem, hl],
      dictKeys_insert_of_mem agg hr _ h⟩

theorem insertSensorRecords_spec (sen : Sensor) :
    ∀ (recs : List VolumeRecord) (st : Agg × Nat),
      (∀ j ∈ recs, j.start ∈ dictKeys st.1) →
      ∃ agg2 mv2, insertSensorRecords st sen recs = some (agg2, mv2) ∧
        dictKeys agg2 = dictKeys st.1 ∧
        mv2 = List.foldl (fun a j => max a j.volume) st.2 recs := by
  intro recs
  induction recs with
  | nil => intro st _; exact ⟨st.1, st.2, by simp [insertSensorRecords], rfl, rfl⟩
  | cons j rest ih =>
    intro st hmem
    obtain ⟨agg2, heq, hkeys⟩ := aggSetItem_spec st.1 j.start sen.id
      ⟨j.volume, sen.lat, sen.lon⟩ (hmem j (by simp))
    obtain ⟨agg3, mv3, heq3, hkeys3, hmv3⟩ := ih (agg2, max st.2 j.volume)
      (by
        intro j2 hj2
        rw [hkeys]
        exact hmem j2 (by simp [hj2]))
    refine ⟨agg3, mv3, ?_, by rw [hkeys3, hkeys], by simpa using hmv3⟩
    simp only [insertSensorRecords, heq]
    exact heq3

theorem buildTimeIndex_spec (series : Series) (start stop : Nat)
    (hrange : seriesInRange series start stop) :
    ∀ (sensors : List Sensor) (st : Agg × Nat),
      (∀ k, start ≤ k → k < stop → k ∈ dictKeys st.1) →
      ∃ agg mv, buildTimeIndex series sensors st = some (agg, mv) ∧
        dictKeys agg = dictKeys st.1 ∧
        mv = List.foldl max st.2 (insertedVolumes sensors series) := by
  intro sensors
  induction sensors with
  | nil =>
    intro st _
    exact ⟨st.1, st.2, by simp [buildTimeIndex], rfl, by simp [insertedVolumes]⟩
  | cons sen rest ih =>
    intro st hgrid
    have hunfold : insertedVolumes (sen :: rest) series =
        (recordsOf series sen.id).map VolumeRecord.volume ++ insertedVolumes rest series := rfl
    cases hl : dictLookup series sen.id with
    | none =>
      obtain ⟨agg, mv, heq, hkeys, hmv⟩ := ih st hgrid
      refine ⟨agg, mv, ?_, hkeys, ?_⟩
      · simp only [buildTimeIndex, hl]
        exact heq
      · rw [hunfold]
        simp [recordsOf, hl, hmv]
    | some recs =>
      have hrecsOf : recordsOf series sen.id = recs := by simp [recordsOf, hl]
      have hmemkeys : ∀ j ∈ recs, j.start ∈ dictKeys st.1 := by
        intro j hj
        have hpair := dictLookup_mem series sen.id recs hl
        have hjr := hrange (sen.id, recs) hpair j hj
        exact hgrid j.start hjr.1 hjr.2
      obtain ⟨agg2, mv2, heq2, hkeys2, hmv2⟩ := insertSensorRecords_spec sen recs st hmemkeys
      obtain ⟨agg, mv, heq, hkeys, hmv⟩ := ih (agg2, mv2)
        (by
          intro k h1 h2
          rw [hkeys2]
          exact hgrid k h1 h2)
      refine ⟨agg, mv, ?_, by rw [hkeys, hkeys2], ?_⟩
      · simp only [buildTimeIndex, hl, heq2]
        exact heq
      · rw [hunfold, hrecsOf, List.foldl_append, hmv, hmv2]
        simp [List.foldl_map]

theorem foldl_max_init_le (l : List Nat) : ∀ a : Nat, a ≤ List.foldl max a l := by
  induction l with
  | nil => intro a; simp
  | cons x xs ih =>
    intro a
    calc a ≤ max a x := le_max_left a x
    _ ≤ List.foldl max (max a x) xs := ih (max a x)

theorem mem_le_foldl_max (l : List Nat) :
    ∀ (a v : Nat), v ∈ l → v ≤ List.foldl max a l := by
  induction l with
  | nil => intro a v h; simp at h
  | cons x xs ih =>
    intro a v h
    rcases List.mem_cons.mp h with h | h
    · subst h
      calc v ≤ max a v := le_max_right a v
      _ ≤ List.foldl max (max a v) xs := foldl_max_init_le xs (max a v)
    · exact ih (max a x) v h

theorem foldl_max_init_or_mem (l : List Nat) :
    ∀ a : Nat, List.foldl max a l = a ∨ List.foldl max a l ∈ l := by
  induction l with
  | nil => intro a; simp
  | cons x xs ih =>
    intro a
    rcases ih (max a x) with h | h
    · rcases max_choice a x with hm | hm
      · left
        simpa [List.foldl, hm] using h
      · right
        simp only [List.foldl] at h ⊢
        rw [h, hm]
        simp
    · right
      simp only [List.foldl]
      exact List.mem_cons_of_mem x h

/-- **C2.** For `start ≤ stop` and an accumulated series satisfying the
in-range/no-duplicate invariant, `get_traffic_volume_by_hour` succeeds and
the key list of the returned aggregate is exactly the dense hour grid
`start, start+1, …, stop-1` — every hour of `[start, stop)` is a key (even
when its inner sensor mapping is empty) and there are no other keys. -/
theorem C2_dense_grid (sensors : List Sensor) (series : Series) (start stop : Nat)
    (hle : start ≤ stop) (hrange : seriesInRange series start stop)
    (hnodup : seriesNodupHours series) :
    ∃ agg mv, get_traffic_volume_by_hour sensors series start stop = some (agg, mv) ∧
      dictKeys agg = List.range' start (stop - start) ∧
      (∀ k : Nat, k ∈ dictKeys agg ↔ start ≤ k ∧ k < stop) := by
  have _ := hnodup
  have hgridkeys : dictKeys (hourGridLoop stop (stop - start) start []) =
      List.range' start (stop - start) := by
    have := hourGridLoop_keys stop (stop - start) start [] rfl (by simp [dictKeys])
    simpa [dictKeys] using this
  obtain ⟨agg, mv, heq, hkeys, hmv⟩ := buildTimeIndex_spec series start stop hrange
    sensors (hourGridLoop stop (stop - start) start [], 0)
    (by
      intro k h1 h2
      simp only [hgridkeys]
      rw [List.mem_range'_1]
      omega)
  refine ⟨agg, mv, heq, ?_, ?_⟩
  · rw [hkeys]
    exact hgridkeys
  · intro k
    rw [hkeys, hgridkeys, List.mem_range'_1]
    omega

/-- Witness for C2: one sensor with one record in a two-hour range; both
hours are keys of the aggregate. -/
theorem C2_dense_grid_witness :
    (0 : Nat) ≤ 2 ∧
    seriesInRange [("A", [⟨0, 1, 5, 100⟩])] 0 2 ∧
    seriesNodupHours [("A", [⟨0, 1, 5, 100⟩])] ∧
    ∃ agg mv,
      get_traffic_volume_by_hour [⟨"A", "a", 10, 10⟩] [("A", [⟨0, 1, 5, 100⟩])] 0 2 =
        some (agg, mv) ∧
      dictKeys agg = List.range' 0 (2 - 0) ∧
      (∀ k : Nat, k ∈ dictKeys agg ↔ 0 ≤ k ∧ k < 2) :=
  ⟨by omega, by decide, by decide,
    C2_dense_grid [⟨"A", "a", 10, 10⟩] [("A", [⟨0, 1, 5, 100⟩])] 0 2
      (by omega) (by decide) (by decide)⟩

/-- **C3.** `get_traffic_volume_by_hour` returns as its second component the
maximum volume over all records inserted into the aggregate, and `0` when no
record is inserted. -/
theorem C3_global_max (sensors : List Sensor) (series : Series) (start stop : Nat)
    (hle : start ≤ stop) (hrange : seriesInRange series start stop) :
    ∃ agg mv, get_traffic_volume_by_hour sensors series start stop = some (agg, mv) ∧
      (insertedVolumes sensors series = [] → mv = 0) ∧
      (∀ v ∈ insertedVolumes sensors series, v ≤ mv) ∧
      (insertedVolumes sensors series ≠ [] → mv ∈ insertedVolumes sensors series) := by
  have hgridkeys : dictKeys (hourGridLoop stop (stop - start) start []) =
      List.range' start (stop - start) := by
    have := hourGridLoop_keys stop (stop - start) start [] rfl (by simp [dictKeys])
    simpa [dictKeys] using this
  obtain ⟨agg, mv, heq, hkeys, hmv⟩ := buildTimeIndex_spec series start stop hrange
    sensors (hourGridLoop stop (stop - start) start [], 0)
    (by
      intro k h1 h2
      simp only [hgridkeys]
      rw [List.mem_range'_1]
      omega)
  refine ⟨agg, mv, heq, ?_, ?_, ?_⟩
  · intro hnil
    rw [hmv, hnil]
    rfl
  · intro v hv
    rw [hmv]
    exact mem_le_foldl_max _ 0 v hv
  · intro hne
    rcases foldl_max_init_or_mem (insertedVolumes sensors series) 0 with h0 | hmem
    · obtain ⟨v0, hv0⟩ := List.exists_mem_of_ne_nil _ hne
      have hle0 : v0 ≤ mv := by
        rw [hmv]
        exact mem_le_foldl_max _ 0 v0 hv0
      have : mv = 0 := by rw [hmv, h0]
      have : v0 = mv := by omega
      rwa [← this]
    · rwa [hmv]

/-- Witness for C3: two sensors with volumes 5 and 10; the returned maximum
is a member of the inserted volumes and bounds them. -/
theorem C3_global_max_witness :
    (0 : Nat) ≤ 2 ∧
    seriesInRange [("A", [⟨0, 1, 5, 100⟩]), ("B", [⟨0, 1, 10, 100⟩])] 0 2 ∧
    ∃ agg mv,
      get_traffic_volume_by_hour [⟨"A", "a", 10, 10⟩, ⟨"B", "b", 20, 20⟩]
          [("A", [⟨0, 1, 5, 100⟩]), ("B", [⟨0, 1, 10, 100⟩])] 0 2 = some (agg, mv) ∧
      (insertedVolumes [⟨"A", "a", 10, 10⟩, ⟨"B", "b", 20, 20⟩]
          [("A", [⟨0, 1, 5, 100⟩]), ("B", [⟨0, 1, 10, 100⟩])] = [] → mv = 0) ∧
      (∀ v ∈ insertedVolumes [⟨"A", "a", 10, 10⟩, ⟨"B", "b", 20, 20⟩]
          [("A", [⟨0, 1, 5, 100⟩]), ("B", [⟨0, 1, 10, 100⟩])], v ≤ mv) ∧
      (insertedVolumes [⟨"A", "a", 10, 10⟩, ⟨"B", "b", 20, 20⟩]
          [("A", [⟨0, 1, 5, 100⟩]), ("B", [⟨0, 1, 10, 100⟩])] ≠ [] →
        mv ∈ insertedVolumes [⟨"A", "a", 10, 10⟩, ⟨"B", "b", 20, 20⟩]
          [("A", [⟨0, 1, 5, 100⟩]), ("B", [⟨0, 1, 10, 100⟩])]) :=
  ⟨by omega, by decide,
    C3_global_max [⟨"A", "a", 10, 10⟩, ⟨"B", "b", 20, 20⟩]
      [("A", [⟨0, 1, 5, 100⟩]), ("B", [⟨0, 1, 10, 100⟩])] 0 2 (by omega) (by decide)⟩

/-!
## Order independence of the aggregation (C4)
-/

theorem aggSetItem_comm (agg : Agg) (h1 h2 : Nat) (s1 s2 : String) (c1 c2 : CellData)
    (hne : h1 ≠ h2) (hm1 : h1 ∈ dictKeys agg) (hm2 : h2 ∈ dictKeys agg) :
    ∃ aggA aggB aggC aggD,
      aggSetItem agg h1 s1 c1 = some aggA ∧ aggSetItem aggA h2 s2 c2 = some aggB ∧
      aggSetItem agg h2 s2 c2 = some aggC ∧ aggSetItem aggC h1 s1 c1 = some aggD ∧
      aggB = aggD := by
  have hs1 := (dictLookup_isSome_iff agg h1).mpr hm1
  have hs2 := (dictLookup_isSome_iff agg h2).mpr hm2
  cases hl1 : dictLookup agg h1 with
  | none => rw [hl1] at hs1; simp at hs1
  | some i1 =>
    cases hl2 : dictLookup agg h2 with
    | none => rw [hl2] at hs2; simp at hs2
    | some i2 =>
      refine ⟨dictInsert agg h1 (dictInsert i1 s1 c1),
        dictInsert (dictInsert agg h1 (dictInsert i1 s1 c1)) h2 (dictInsert i2 s2 c2),
        dictInsert agg h2 (dictInsert i2 s2 c2),
        dictInsert (dictInsert agg h2 (dictInsert i2 s2 c2)) h1 (dictInsert i1 s1 c1),
        by simp [aggSetItem, hl1], ?_, by simp [aggSetItem, hl2], ?_, ?_⟩
      · have : dictLookup (dictInsert agg h1 (dictInsert i1 s1 c1)) h2 = some i2 := by
          rw [dictLookup_insert_ne agg h1 h2 _ hne, hl2]
        simp [aggSetItem, this]
      · have : dictLookup (dictInsert agg h2 (dictInsert i2 s2 c2)) h1 = some i1 := by
          rw [dictLookup_insert_ne agg h2 h1 _ (Ne.symm hne), hl1]
        simp [aggSetItem, this]
      · exact dictInsert_comm agg h1 h2 _ _ hne hm1

/-- Inserting one sensor's records is invariant under permuting the record
list, as long as the records carry pairwise distinct hours that are all keys
of the aggregate. -/
theorem insertSensorRecords_perm (sen : Sensor) :
    ∀ {recs1 recs2 : List VolumeRecord}, recs1.Perm recs2 →
      ∀ st : Agg × Nat, recs1.Pairwise (fun j1 j2 => j1.start ≠ j2.start) →
      (∀ j ∈ recs1, j.start ∈ dictKeys st.1) →
      insertSensorRecords st sen recs1 = insertSensorRecords st sen recs2 := by
  intro recs1 recs2 hp
  induction hp with
  | nil => intro st _ _; rfl
  | cons x hrest ih =>
    intro st hpw hmem
    obtain ⟨agg2, heq, hkeys⟩ := aggSetItem_spec st.1 x.start sen.id
      ⟨x.volume, sen.lat, sen.lon⟩ (hmem x (by simp))
    simp only [insertSensorRecords, heq]
    exact ih (agg2, max st.2 x.volume) (List.pairwise_cons.mp hpw).2
      (fun j hj => by
        rw [hkeys]
        exact hmem j (by simp [hj]))
  | swap x y l =>
    intro st hpw hmem
    have hyx : y.start ≠ x.start :=
      (List.pairwise_cons.mp hpw).1 x (by simp)
    have hmy : y.start ∈ dictKeys st.1 := hmem y (by simp)
    have hmx : x.start ∈ dictKeys st.1 := hmem x (by simp)
    obtain ⟨aggA, aggB, aggC, aggD, hA, hB, hC, hD, hBD⟩ :=
      aggSetItem_comm st.1 y.start x.start sen.id sen.id
        ⟨y.volume, sen.lat, sen.lon⟩ ⟨x.volume, sen.lat, sen.lon⟩ hyx hmy hmx
    simp only [insertSensorRecords, hA, hB, hC, hD]
    rw [hBD]
    have : max (max st.2 y.volume) x.volume = max (max st.2 x.volume) y.volume := by
      rw [max_assoc, max_comm y.volume x.volume, ← max_assoc]
    rw [this]
  | trans h12 _ ih12 ih23 =>
    intro st hpw hmem
    rw [ih12 st hpw hmem]
    exact ih23 st
      ((h12.pairwise_iff (fun hab => Ne.symm hab)).mp hpw)
      (fun j hj => hmem j (h12.mem_iff.mpr hj))

/-- The whole aggregation loop is invariant under replacing the series by an
order-permuted one, sensor by sensor. -/
theorem buildTimeIndex_perm (s1 s2 : Series) (start stop : Nat)
    (hr1 : seriesInRange s1 start stop) (hnd1 : seriesNodupHours s1)
    (hperm : ∀ sid : String, (recordsOf s1 sid).Perm (recordsOf s2 sid)) :
    ∀ (sensors : List Sensor) (st : Agg × Nat),
      (∀ k, start ≤ k → k < stop → k ∈ dictKeys st.1) →
      buildTimeIndex s1 sensors st = buildTimeIndex s2 sensors st := by
  intro sensors
  induction sensors with
  | nil => intro st _; rfl
  | cons sen rest ih =>
    intro st hgrid
    have hpsen := hperm sen.id
    cases hl1 : dictLookup s1 sen.id with
    | none =>
      cases hl2 : dictLookup s2 sen.id with
      | none =>
        simp only [buildTimeIndex, hl1, hl2]
        exact ih st hgrid
      | some r2 =>
        have : r2 = [] := by
          rw [recordsOf, recordsOf, hl1, hl2] at hpsen
          exact hpsen.symm.eq_nil
        subst this
        simp only [buildTimeIndex, hl1, hl2, insertSensorRecords]
        exact ih st hgrid
    | some r1 =>
      cases hl2 : dictLookup s2 sen.id with
      | none =>
        have : r1 = [] := by
          rw [recordsOf, recordsOf, hl1, hl2] at hpsen
          exact hpsen.eq_nil
        subst this
        simp only [buildTimeIndex, hl1, hl2, insertSensorRecords]
        exact ih st hgrid
      | some r2 =>
        have hp12 : r1.Perm r2 := by
          rw [recordsOf, recordsOf, hl1, hl2] at hpsen
          exact hpsen
        have hpw : r1.Pairwise (fun j1 j2 => j1.start ≠ j2.start) :=
          hnd1 (sen.id, r1) (dictLookup_mem s1 sen.id r1 hl1)
        have hmem : ∀ j ∈ r1, j.start ∈ dictKeys st.1 := by
          intro j hj
          have hjr := hr1 (sen.id, r1) (dictLookup_mem s1 sen.id r1 hl1) j hj
          exact hgrid j.start hjr.1 hjr.2
        have hins := insertSensorRecords_perm sen hp12 st hpw hmem
        obtain ⟨agg2, mv2, heq2, hkeys2, _⟩ := insertSensorRecords_spec sen r1 st hmem
        simp only [buildTimeIndex, hl1, hl2]
        rw [← hins, heq2]
        exact ih (agg2, mv2)
          (fun k hk1 hk2 => by
            rw [hkeys2]
            exact hgrid k hk1 hk2)

/-- **C4.** Two accumulated series holding the same records — per sensor a
permutation of each other, under the no-duplicate/in-range precondition —
make `get_traffic_volume_by_hour` produce an identical time-indexed
aggregate and an identical global maximum volume. -/
theorem C4_order_independence (sensors : List Sensor) (s1 s2 : Series) (start stop : Nat)
    (hle : start ≤ stop)
    (hr1 : seriesInRange s1 start stop) (hr2 : seriesInRange s2 start stop)
    (hnd1 : seriesNodupHours s1) (hnd2 : seriesNodupHours s2)
    (hperm : ∀ sid : String, (recordsOf s1 sid).Perm (recordsOf s2 sid)) :
    get_traffic_volume_by_hour sensors s1 start stop =
      get_traffic_volume_by_hour sensors s2 start stop := by
  have _ := hle
  have _ := hr2
  have _ := hnd2
  have hgridkeys : dictKeys (hourGridLoop stop (stop - start) start []) =
      List.range' start (stop - start) := by
    have := hourGridLoop_keys stop (stop - start) start [] rfl (by simp [dictKeys])
    simpa [dictKeys] using this
  unfold get_traffic_volume_by_hour
  exact buildTimeIndex_perm s1 s2 start stop hr1 hnd1 hperm sensors _
    (by
      intro k h1 h2
      simp only [hgridkeys]
      rw [List.mem_range'_1]
      omega)

/-- Witness for C4: one sensor, the same two records accumulated in the two
possible orders, identical output. -/
theorem C4_order_independence_witness :
    get_traffic_volume_by_hour [⟨"A", "a", 10, 10⟩]
        [("A", [⟨0, 1, 5, 100⟩, ⟨1, 2, 7, 100⟩])] 0 2 =
      get_traffic_volume_by_hour [⟨"A", "a", 10, 10⟩]
        [("A", [⟨1, 2, 7, 100⟩, ⟨0, 1, 5, 100⟩])] 0 2 :=
  C4_order_independence [⟨"A", "a", 10, 10⟩]
    [("A", [⟨0, 1, 5, 100⟩, ⟨1, 2, 7, 100⟩])]
    [("A", [⟨1, 2, 7, 100⟩, ⟨0, 1, 5, 100⟩])] 0 2
    (by omega) (by decide) (by decide) (by decide) (by decide)
    (by
      intro sid
      by_cases hsid : ("A" : String) = sid
      · simp only [recordsOf, dictLookup, if_pos hsid]
        exact List.Perm.swap _ _ []
      · simp only [recordsOf, dictLookup, if_neg hsid]
        rfl)

theorem requestAux_count_le (oracle : Nat → AttemptOutcome) :
    ∀ (attempts made : Nat), (requestAux oracle made attempts).1 ≤ made + attempts := by
  intro attempts
  induction attempts with
  | zero => intro made; simp [requestAux]
  | succ attempts ih =>
    intro made
    cases h : oracle made with
    | readTimeout =>
      simp only [requestAux, h]
      have := ih (made + 1)
      omega
    | otherFailure msg =>
      simp only [requestAux, h]
      omega
    | ok status =>
      simp only [requestAux, h]
      by_cases hs : status ≠ 200
      · simp only [if_pos hs]
        omega
      · simp only [if_neg hs]
        omega

theorem requestAux_all_timeout (oracle : Nat → AttemptOutcome) :
    ∀ (attempts made : Nat),
      (∀ j, made ≤ j → j < made + attempts → oracle j = AttemptOutcome.readTimeout) →
      requestAux oracle made attempts = (made + attempts, Except.error RequestError.timeout) := by
  intro attempts
  induction attempts with
  | zero => intro made _; simp [requestAux]
  | succ attempts ih =>
    intro made hto
    have h0 : oracle made = AttemptOutcome.readTimeout := hto made (by omega) (by omega)
    simp only [requestAux, h0]
    have hrec := ih (made + 1) (fun j hj1 hj2 => hto j (by omega) (by omega))
    have harith : made + 1 + attempts = made + (attempts + 1) := by omega
    rw [hrec, harith]

theorem requestAux_skip (oracle : Nat → AttemptOutcome) :
    ∀ (k attempts made : Nat), k ≤ attempts →
      (∀ j, j < k → oracle (made + j) = AttemptOutcome.readTimeout) →
      requestAux oracle made attempts = requestAux oracle (made + k) (attempts - k) := by
  intro k
  induction k with
  | zero => intro attempts made _ _; simp
  | succ k ih =>
    intro attempts made hk hto
    obtain ⟨attempts2, rfl⟩ : ∃ a2, attempts = a2 + 1 := ⟨attempts - 1, by omega⟩
    have h0 : oracle made = AttemptOutcome.readTimeout := by
      have := hto 0 (by omega)
      simpa using this
    simp only [requestAux, h0]
    have hrec := ih attempts2 (made + 1) (by omega)
      (fun j hj => by
        have := hto (j + 1) (by omega)
        simpa [Nat.add_assoc, Nat.add_comm 1 j] using this)
    have e1 : made + 1 + k = made + (k + 1) := by omega
    have e2 : attempts2 - k = attempts2 + 1 - (k + 1) := by omega
    rw [hrec, e1, e2]

/-- **C5.** The transport `request` issues at most 10 attempts in total; when
all 10 attempts time out it fails with the timeout error after exactly 10
attempts; it retries only on a timeout, so a non-timeout transport failure at
attempt `k` (all earlier attempts having timed out) propagates immediately
after `k+1` attempts; and when the first attempt yields a response it issues
exactly one attempt. -/
theorem C5_transport_retry (oracle : Nat → AttemptOutcome) :
    (request oracle).1 ≤ 10 ∧
    ((∀ j, j < 10 → oracle j = AttemptOutcome.readTimeout) →
      request oracle = (10, Except.error RequestError.timeout)) ∧
    (∀ k msg, k < 10 → (∀ j, j < k → oracle j = AttemptOutcome.readTimeout) →
      oracle k = AttemptOutcome.otherFailure msg →
      request oracle = (k + 1, Except.error (RequestError.other msg))) ∧
    (∀ status, oracle 0 = AttemptOutcome.ok status → (request oracle).1 = 1) := by
  refine ⟨?_, ?_, ?_, ?_⟩
  · have := requestAux_count_le oracle 10 0
    simpa [request] using this
  · intro hto
    have := requestAux_all_timeout oracle 10 0 (fun j hj1 hj2 => hto j (by omega))
    simpa [request] using this
  · intro k msg hk hto hother
    have hskip := requestAux_skip oracle k 10 0 (by omega)
      (fun j hj => by simpa using hto j hj)
    have hrest : (10 : Nat) - k = (10 - k - 1) + 1 := by omega
    have hk0 : oracle (0 + k) = AttemptOutcome.otherFailure msg := by simpa using hother
    rw [request, hskip, hrest]
    simp only [requestAux, hk0]
    have : (0 : Nat) + k + 1 = k + 1 := by omega
    rw [this]
  · intro status hok
    rw [request]
    simp only [requestAux, hok]
    by_cases hs : status ≠ 200
    · simp only [if_pos hs]
    · simp only [if_neg hs]

/-- Witness for C5 at concrete oracles: an always-timing-out oracle exhausts
all 10 attempts; an immediate non-timeout failure stops after one attempt; an
immediate response costs exactly one attempt. -/
theorem C5_transport_retry_witness :
    (request (fun _ => AttemptOutcome.readTimeout)).1 ≤ 10 ∧
    request (fun _ => AttemptOutcome.readTimeout) = (10, Except.error RequestError.timeout) ∧
    request (fun _ => AttemptOutcome.otherFailure "ssl") =
      (1, Except.error (RequestError.other "ssl")) ∧
    (request (fun _ => AttemptOutcome.ok 200)).1 = 1 :=
  ⟨(C5_transport_retry (fun _ => AttemptOutcome.readTimeout)).1,
    (C5_transport_retry (fun _ => AttemptOutcome.readTimeout)).2.1 (fun j _ => rfl),
    (C5_transport_retry (fun _ => AttemptOutcome.otherFailure "ssl")).2.2.1 0 "ssl"
      (by omega) (fun j hj => by omega) rfl,
    (C5_transport_retry (fun _ => AttemptOutcome.ok 200)).2.2.2 200 rfl⟩

/-- **C6.** When an attempt yields a response (all earlier attempts having
timed out), `request` checks the status: a non-200 status fails with the
status error carrying that code, and a 200 status returns the response. -/
theorem C6_status_check (oracle : Nat → AttemptOutcome) (k status : Nat)
    (hk : k < 10) (hto : ∀ j, j < k → oracle j = AttemptOutcome.readTimeout)
    (hok : oracle k = AttemptOutcome.ok status) :
    (status ≠ 200 →
      request oracle = (k + 1, Except.error (RequestError.statusError status))) ∧
    (status = 200 → request oracle = (k + 1, Except.ok status)) := by
  have hskip := requestAux_skip oracle k 10 0 (by omega)
    (fun j hj => by simpa using hto j hj)
  have hrest : (10 : Nat) - k = (10 - k - 1) + 1 := by omega
  have hk0 : oracle (0 + k) = AttemptOutcome.ok status := by simpa using hok
  have hbase : (0 : Nat) + k + 1 = k + 1 := by omega
  constructor
  · intro hs
    rw [request, hskip, hrest]
    simp only [requestAux, hk0, if_pos hs]
    rw [hbase]
  · intro hs
    have hs2 : ¬status ≠ 200 := by omega
    rw [request, hskip, hrest]
    simp only [requestAux, hk0, if_neg hs2]
    rw [hbase]

/-- Witness for C6: a second-attempt 500 response raises the status error
after two attempts; a first-attempt 200 response is returned. -/
theorem C6_status_check_witness :
    ((500 : Nat) ≠ 200 →
      request (fun n => if n = 0 then AttemptOutcome.readTimeout else AttemptOutcome.ok 500) =
        (2, Except.error (RequestError.statusError 500))) ∧
    ((200 : Nat) = 200 →
      request (fun _ => AttemptOutcome.ok 200) = (0 + 1, Except.ok 200)) :=
  ⟨(C6_status_check
      (fun n => if n = 0 then AttemptOutcome.readTimeout else AttemptOutcome.ok 500)
      1 500 (by omega) (fun j hj => by simp [Nat.lt_one_iff.mp hj]) rfl).1,
    (C6_status_check (fun _ => AttemptOutcome.ok 200) 0 200 (by omega)
      (fun j hj => by omega) rfl).2⟩

theorem mem_optClause {A : Type} (o : Option A) (f : A → String) (s : String) :
    s ∈ optClause o f ↔ ∃ x, o = some x ∧ s = f x := by
  cases o <;> simp [optClause]

theorem mem_searchClauses (a : Option (List String)) (b : Option (List Int))
    (c : Option Bool) (d e : Option String) (s : String) :
    s ∈ searchClauses a b c d e ↔
      (∃ x, a = some x ∧ s = roadCategoryClause x) ∨
      (∃ x, b = some x ∧ s = countyNumbersClause x) ∨
      (∃ x, c = some x ∧ s = isOperationalClause x) ∨
      (∃ x, d = some x ∧ s = trafficTypeClause x) ∨
      (∃ x, e = some x ∧ s = registrationFrequencyClause x) := by
  simp [searchClauses, mem_optClause, or_assoc]

theorem not_isPrefixOf_head_ne (c1 c2 : Char) (l1 l2 : List Char) (h : c1 ≠ c2) :
    List.isPrefixOf (c1 :: l1) (c2 :: l2) = false := by
  simp [List.isPrefixOf, h]

theorem not_isPrefixOf_second_ne (c c1 c2 : Char) (l1 l2 : List Char) (h : c1 ≠ c2) :
    List.isPrefixOf (c :: c1 :: l1) (c :: c2 :: l2) = false := by
  simp [List.isPrefixOf, h]

/-- **C8.** In `query_traffic_registration_point_search`: an omitted (`None`)
filter key emits no clause (no emitted clause even starts with that key's
name); with no filters supplied there are no clauses at all and the query is
the fixed template around an empty `searchQuery`; a supplied boolean
serializes as the lowercase literal (`isOperational=True` emits exactly
`true`); and supplied `trafficType`/`registrationFrequency` values serialize
upper-cased. -/
theorem C8_search_query_filters (a : Option (List String)) (b : Option (List Int))
    (c : Option Bool) (d e : Option String) :
    (searchClauses none none none none none = [] ∧
      query_traffic_registration_point_search none none none none none =
        "\x7b\"query\":\"\x7btrafficRegistrationPoints(searchQuery:\x7b\x7d)\x7bid name location\x7bcoordinates\x7blatLon\x7blat lon\x7d\x7d\x7d\x7d\x7d\", \"variables\": null\x7d") ∧
    (a = none → ∀ s ∈ searchClauses a b c d e,
      List.isPrefixOf "roadCategoryIds".data s.data = false) ∧
    (b = none → ∀ s ∈ searchClauses a b c d e,
      List.isPrefixOf "countyNumbers".data s.data = false) ∧
    (c = none → ∀ s ∈ searchClauses a b c d e,
      List.isPrefixOf "isOperational".data s.data = false) ∧
    (d = none → ∀ s ∈ searchClauses a b c d e,
      List.isPrefixOf "trafficType".data s.data = false) ∧
    (e = none → ∀ s ∈ searchClauses a b c d e,
      List.isPrefixOf "registrationFrequency".data s.data = false) ∧
    (c = some true → "isOperational: true" ∈ searchClauses a b c d e) ∧
    (c = some false → "isOperational: false" ∈ searchClauses a b c d e) ∧
    (∀ s, d = some s → ("trafficType: " ++ pyUpper s) ∈ searchClauses a b c d e) ∧
    (∀ s, e = some s →
      ("registrationFrequency: " ++ pyUpper s) ∈ searchClauses a b c d e) := by
  refine ⟨⟨by decide, by decide⟩, ?_, ?_, ?_, ?_, ?_, ?_, ?_, ?_, ?_⟩
  · intro ha s hs
    rw [mem_searchClauses] at hs
    rcases hs with ⟨x, hx, rfl⟩ | ⟨x, hx, rfl⟩ | ⟨x, hx, rfl⟩ | ⟨x, hx, rfl⟩ | ⟨x, hx, rfl⟩
    · rw [ha] at hx; exact absurd hx (by simp)
    · rw [countyNumbersClause, String.data_append, String.data_append]
      exact not_isPrefixOf_head_ne 'r' 'c' _ _ (by decide)
    · rw [isOperationalClause, String.data_append]
      exact not_isPrefixOf_head_ne 'r' 'i' _ _ (by decide)
    · rw [trafficTypeClause, String.data_append]
      exact not_isPrefixOf_head_ne 'r' 't' _ _ (by decide)
    · rw [registrationFrequencyClause, String.data_append]
      exact not_isPrefixOf_second_ne 'r' 'o' 'e' _ _ (by decide)
  · intro hb s hs
    rw [mem_searchClauses] at hs
    rcases hs with ⟨x, hx, rfl⟩ | ⟨x, hx, rfl⟩ | ⟨x, hx, rfl⟩ | ⟨x, hx, rfl⟩ | ⟨x, hx, rfl⟩
    · rw [roadCategoryClause, String.data_append, String.data_append]
      exact not_isPrefixOf_head_ne 'c' 'r' _ _ (by decide)
    · rw [hb] at hx; exact absurd hx (by simp)
    · rw [isOperationalClause, String.data_append]
      exact not_isPrefixOf_head_ne 'c' 'i' _ _ (by decide)
    · rw [trafficTypeClause, String.data_append]
      exact not_isPrefixOf_head_ne 'c' 't' _ _ (by decide)
    · rw [registrationFrequencyClause, String.data_append]
      exact not_isPrefixOf_head_ne 'c' 'r' _ _ (by decide)
  · intro hc s hs
    rw [mem_searchClauses] at hs
    rcases hs with ⟨x, hx, rfl⟩ | ⟨x, hx, rfl⟩ | ⟨x, hx, rfl⟩ | ⟨x, hx, rfl⟩ | ⟨x, hx, rfl⟩
    · rw [roadCategoryClause, String.data_append, String.data_append]
      exact not_isPrefixOf_head_ne 'i' 'r' _ _ (by decide)
    · rw [countyNumbersClause, String.data_append, String.data_append]
      exact not_isPrefixOf_head_ne 'i' 'c' _ _ (by decide)
    · rw [hc] at hx; exact absurd hx (by simp)
    · rw [trafficTypeClause, String.data_append]
      exact not_isPrefixOf_head_ne 'i' 't' _ _ (by decide)
    · rw [registrationFrequencyClause, String.data_append]
      exact not_isPrefixOf_head_ne 'i' 'r' _ _ (by decide)
  · intro hd s hs
    rw [mem_searchClauses] at hs
    rcases hs with ⟨x, hx, rfl⟩ | ⟨x, hx, rfl⟩ | ⟨x, hx, rfl⟩ | ⟨x, hx, rfl⟩ | ⟨x, hx, rfl⟩
    · rw [roadCategoryClause, String.data_append, String.data_append]
      exact not_isPrefixOf_head_ne 't' 'r' _ _ (by decide)
    · rw [countyNumbersClause, String.data_append, String.data_append]
      exact not_isPrefixOf_head_ne 't' 'c' _ _ (by decide)
    · rw [isOperationalClause, String.data_append]
      exact not_isPrefixOf_head_ne 't' 'i' _ _ (by decide)
    · rw [hd] at hx; exact absurd hx (by simp)
    · rw [registrationFrequencyClause, String.data_append]
      exact not_isPrefixOf_head_ne 't' 'r' _ _ (by decide)
  · intro he s hs
    rw [mem_searchClauses] at hs
    rcases hs with ⟨x, hx, rfl⟩ | ⟨x, hx, rfl⟩ | ⟨x, hx, rfl⟩ | ⟨x, hx, rfl⟩ | ⟨x, hx, rfl⟩
    · rw [roadCategoryClause, String.data_append, String.data_append]
      exact not_isPrefixOf_second_ne 'r' 'e' 'o' _ _ (by decide)
    · rw [countyNumbersClause, String.data_append, String.data_append]
      exact not_isPrefixOf_head_ne 'r' 'c' _ _ (by decide)
    · rw [isOperationalClause, String.data_append]
      exact not_isPrefixOf_head_ne 'r' 'i' _ _ (by decide)
    · rw [trafficTypeClause, String.data_append]
      exact not_isPrefixOf_head_ne 'r' 't' _ _ (by decide)
    · rw [he] at hx; exact absurd hx (by simp)
  · intro hc
    rw [mem_searchClauses]
    exact Or.inr (Or.inr (Or.inl ⟨true, hc, by decide⟩))
  · intro hc
    rw [mem_searchClauses]
    exact Or.inr (Or.inr (Or.inl ⟨false, hc, by decide⟩))
  · intro s hd
    rw [mem_searchClauses]
    exact Or.inr (Or.inr (Or.inr (Or.inl ⟨s, hd, rfl⟩)))
  · intro s he
    rw [mem_searchClauses]
    exact Or.inr (Or.inr (Or.inr (Or.inr ⟨s, he, rfl⟩)))

/-- Witness for C8 at a concrete filter combination: `isOperational=True`
with `trafficType="Vehicle"` emits the lowercase `true` clause and the
upper-cased traffic type clause, omitted keys emit nothing, and the
empty-filter query equals the bare template. -/
theorem C8_search_query_filters_witness :
    (searchClauses none none none none none = [] ∧
      query_traffic_registration_point_search none none none none none =
        "\x7b\"query\":\"\x7btrafficRegistrationPoints(searchQuery:\x7b\x7d)\x7bid name location\x7bcoordinates\x7blatLon\x7blat lon\x7d\x7d\x7d\x7d\x7d\", \"variables\": null\x7d") ∧
    "isOperational: true" ∈ searchClauses none none (some true) (some "Vehicle") none ∧
    ("trafficType: " ++ pyUpper "Vehicle") ∈
      searchClauses none none (some true) (some "Vehicle") none ∧
    (∀ s ∈ searchClauses none none (some true) (some "Vehicle") none,
      List.isPrefixOf "countyNumbers".data s.data = false) :=
  ⟨(C8_search_query_filters none none none none none).1,
    (C8_search_query_filters none none (some true) (some "Vehicle") none).2.2.2.2.2.2.1 rfl,
    (C8_search_query_filters none none (some true) (some "Vehicle") none).2.2.2.2.2.2.2.2.1
      "Vehicle" rfl,
    (C8_search_query_filters none none (some true) (some "Vehicle") none).2.2.1 rfl⟩

/-!
## Serialization round trip (C10)
-/

theorem digitChar_facts : ∀ n, n < 10 →
    isDigitChar (digitChar n) = true ∧ digitVal (digitChar n) = n := by
  decide

theorem take_drop_suffix (l m : List Char) (h : m.length = 6) :
    (l ++ m).take ((l ++ m).length - 6) = l := by
  rw [List.length_append, h, Nat.add_sub_cancel]
  exact List.take_left l m

theorem daysInMonth_le (y m : Nat) : daysInMonth y m ≤ 31 := by
  unfold daysInMonth
  split_ifs <;> omega

theorem parseFixed_append :
    ∀ (a acc : Nat) (l1 : List Char) (v : Nat), parseFixed a acc l1 = some (v, []) →
      ∀ (b : Nat) (l2 : List Char), parseFixed (a + b) acc (l1 ++ l2) = parseFixed b v l2 := by
  intro a
  induction a with
  | zero =>
    intro acc l1 v h b l2
    simp only [parseFixed, Option.some_inj, Prod.mk.injEq] at h
    obtain ⟨rfl, rfl⟩ := h
    simp [Nat.zero_add]
  | succ a ih =>
    intro acc l1 v h b l2
    cases l1 with
    | nil => simp [parseFixed] at h
    | cons c rest =>
      simp only [parseFixed] at h
      by_cases hd : isDigitChar c
      · rw [if_pos hd] at h
        have harith : a + 1 + b = (a + b) + 1 := by omega
        rw [harith]
        show parseFixed ((a + b) + 1) acc (c :: (rest ++ l2)) = parseFixed b v l2
        simp only [parseFixed, if_pos hd]
        exact ih _ _ v h b l2
      · rw [if_neg hd] at h
        exact absurd h (by simp)

theorem parseFixed_padDigits :
    ∀ (w acc n : Nat), n < 10 ^ w →
      parseFixed w acc (padDigits w n) = some (acc * 10 ^ w + n, []) := by
  intro w
  induction w with
  | zero =>
    intro acc n h
    have hn : n = 0 := by omega
    subst hn
    simp [parseFixed, padDigits]
  | succ w ih =>
    intro acc n h
    have hdiv : n / 10 < 10 ^ w := by
      rw [Nat.div_lt_iff_lt_mul (by omega)]
      calc n < 10 ^ (w + 1) := h
      _ = 10 ^ w * 10 := by rw [pow_succ]
    have hstep := ih acc (n / 10) hdiv
    have hmod := digitChar_facts (n % 10) (by omega)
    have happ := parseFixed_append w acc (padDigits w (n / 10)) _ hstep 1 [digitChar (n % 10)]
    show parseFixed (w + 1) acc (padDigits w (n / 10) ++ [digitChar (n % 10)]) =
      some (acc * 10 ^ (w + 1) + n, [])
    rw [happ]
    simp only [parseFixed, if_pos hmod.1, hmod.2]
    have harith : (acc * 10 ^ w + n / 10) * 10 + n % 10 = acc * 10 ^ (w + 1) + n := by
      rw [pow_succ]
      have h10 : n / 10 * 10 + n % 10 = n := by omega
      calc (acc * 10 ^ w + n / 10) * 10 + n % 10
          = acc * (10 ^ w * 10) + (n / 10 * 10 + n % 10) := by ring
      _ = acc * (10 ^ w * 10) + n := by rw [h10]
    rw [harith]

theorem parse1or2_padDigits (m : Nat) (rest : List Char) (h : m < 100) :
    parse1or2 (padDigits 2 m ++ rest) = some (m, rest) := by
  have h1 := digitChar_facts (m / 10 % 10) (by omega)
  have h2 := digitChar_facts (m % 10) (by omega)
  have hlist : padDigits 2 m = [digitChar (m / 10 % 10), digitChar (m % 10)] := by
    simp [padDigits]
  rw [hlist]
  simp only [List.cons_append, List.nil_append, parse1or2, if_pos h1.1, if_pos h2.1,
    h1.2, h2.2]
  have harith : m / 10 % 10 * 10 + m % 10 = m := by omega
  rw [harith]

theorem expectChar_cons (c : Char) (rest : List Char) :
    expectChar c (c :: rest) = some rest := by
  simp [expectChar]

/-- **C10.** For every (valid, microsecond-0) naive datetime `d`, the
serialization round trip is the identity:
`string_to_datetime (datetime_to_string d) = some d`; moreover the
serialized form always ends in the fixed offset suffix `"+02:00"` — exactly
the six characters that `string_to_datetime` discards before parsing. -/
theorem C10_datetime_roundtrip (d : PyDateTime) (h : validDateTime d = true) :
    string_to_datetime (datetime_to_string d) = some d ∧
    (∃ pre : List Char, (datetime_to_string d).data = pre ++ "+02:00".data) := by
  simp only [validDateTime, Bool.and_eq_true, decide_eq_true_eq] at h
  obtain ⟨⟨⟨⟨⟨⟨⟨⟨hy1, hy2⟩, hm1⟩, hm2⟩, hd1⟩, hd2⟩, hh1⟩, hmi1⟩, hs1⟩ := h
  have hd31 : d.day ≤ 31 := le_trans hd2 (daysInMonth_le d.year d.month)
  have hvalid : validDateTime d = true := by
    simp only [validDateTime, Bool.and_eq_true, decide_eq_true_eq]
    exact ⟨⟨⟨⟨⟨⟨⟨⟨hy1, hy2⟩, hm1⟩, hm2⟩, hd1⟩, hd2⟩, hh1⟩, hmi1⟩, hs1⟩
  have hdata : (datetime_to_string d).data =
      (padDigits 4 d.year ++ '-' :: (padDigits 2 d.month ++ '-' ::
        (padDigits 2 d.day ++ 'T' :: (padDigits 2 d.hour ++ ':' ::
          (padDigits 2 d.minute ++ ':' :: padDigits 2 d.second))))) ++ "+02:00".data := by
    simp [datetime_to_string, List.append_assoc]
  have hsuffix : ∃ pre : List Char, (datetime_to_string d).data = pre ++ "+02:00".data :=
    ⟨_, hdata⟩
  refine ⟨?_, hsuffix⟩
  have htake : (datetime_to_string d).data.take ((datetime_to_string d).data.length - 6) =
      padDigits 4 d.year ++ '-' :: (padDigits 2 d.month ++ '-' ::
        (padDigits 2 d.day ++ 'T' :: (padDigits 2 d.hour ++ ':' ::
          (padDigits 2 d.minute ++ ':' :: padDigits 2 d.second)))) := by
    rw [hdata]
    exact take_drop_suffix _ _ (by decide)
  rw [string_to_datetime, htake]
  have hyear0 : parseFixed 4 0 (padDigits 4 d.year) = some (d.year, []) := by
    have := parseFixed_padDigits 4 0 d.year (by omega)
    simpa using this
  have hyear : parseFixed 4 0 (padDigits 4 d.year ++ '-' :: (padDigits 2 d.month ++ '-' ::
      (padDigits 2 d.day ++ 'T' :: (padDigits 2 d.hour ++ ':' ::
        (padDigits 2 d.minute ++ ':' :: padDigits 2 d.second))))) =
      some (d.year, '-' :: (padDigits 2 d.month ++ '-' ::
        (padDigits 2 d.day ++ 'T' :: (padDigits 2 d.hour ++ ':' ::
          (padDigits 2 d.minute ++ ':' :: padDigits 2 d.second))))) := by
    have := parseFixed_append 4 0 (padDigits 4 d.year) d.year hyear0 0
      ('-' :: (padDigits 2 d.month ++ '-' :: (padDigits 2 d.day ++ 'T' ::
        (padDigits 2 d.hour ++ ':' :: (padDigits 2 d.minute ++ ':' :: padDigits 2 d.second)))))
    simpa [parseFixed] using this
  have hmo := parse1or2_padDigits d.month ('-' :: (padDigits 2 d.day ++ 'T' ::
    (padDigits 2 d.hour ++ ':' :: (padDigits 2 d.minute ++ ':' :: padDigits 2 d.second))))
    (by omega)
  have hda := parse1or2_padDigits d.day ('T' :: (padDigits 2 d.hour ++ ':' ::
    (padDigits 2 d.minute ++ ':' :: padDigits 2 d.second))) (by omega)
  have hho := parse1or2_padDigits d.hour (':' :: (padDigits 2 d.minute ++ ':' ::
    padDigits 2 d.second)) (by omega)
  have hmi := parse1or2_padDigits d.minute (':' :: padDigits 2 d.second) (by omega)
  have hse : parse1or2 (padDigits 2 d.second) = some (d.second, []) := by
    have := parse1or2_padDigits d.second [] (by omega)
    simpa using this
  have heta : (⟨d.year, d.month, d.day, d.hour, d.minute, d.second⟩ : PyDateTime) = d := rfl
  simp only [parseDateTimeChars, hyear, expectChar_cons, hmo, hda, hho, hmi, hse, heta,
    hvalid, if_true]

/-- Witness for C10 at the concrete datetime 2019-10-24 00:00:00 used by the
source's main block. -/
theorem C10_datetime_roundtrip_witness :
    validDateTime ⟨2019, 10, 24, 0, 0, 0⟩ = true ∧
    datetime_to_string ⟨2019, 10, 24, 0, 0, 0⟩ = "2019-10-24T00:00:00+02:00" ∧
    (string_to_datetime (datetime_to_string ⟨2019, 10, 24, 0, 0, 0⟩) =
        some ⟨2019, 10, 24, 0, 0, 0⟩ ∧
      ∃ pre : List Char,
        (datetime_to_string ⟨2019, 10, 24, 0, 0, 0⟩).data = pre ++ "+02:00".data) :=
  ⟨by decide, by decide, C10_datetime_roundtrip ⟨2019, 10, 24, 0, 0, 0⟩ (by decide)⟩

/-!
## Normalizer error behaviour (C7) and sensor-key creation (C9)
-/

theorem mem_dictKeys_insert {K V : Type} [DecidableEq K] (d : List (K × V)) (k k2 : K)
    (v : V) (h : k2 ∈ dictKeys (dictInsert d k v)) : k2 ∈ dictKeys d ∨ k2 = k := by
  by_cases hk : k ∈ dictKeys d
  · rw [dictKeys_insert_of_mem d k v hk] at h
    exact Or.inl h
  · rw [dictKeys_insert_of_not_mem d k v hk] at h
    rcases List.mem_append.mp h with h | h
    · exact Or.inl h
    · simp at h
      exact Or.inr h

theorem processResponse_keys (series : RawSeries) (sid : String) (resp : Json)
    (series2 : RawSeries) (h : processResponse series sid resp = Except.ok series2) :
    ∀ k ∈ dictKeys series2, k ∈ dictKeys series ∨
      (k = sid ∧ ∃ recs, collectEdges resp = Except.ok recs) := by
  intro k hk
  cases hce : collectEdges resp with
  | error e =>
    cases e with
    | typeError =>
      simp only [processResponse, hce, Except.ok.injEq] at h
      subst h
      exact Or.inl hk
    | keyError s => simp [processResponse, hce] at h
    | valueError => simp [processResponse, hce] at h
  | ok temp =>
    simp only [processResponse, hce, Except.ok.injEq] at h
    cases hl : dictLookup series sid with
    | some old =>
      rw [hl] at h
      subst h
      rcases mem_dictKeys_insert series sid k (old ++ temp) hk with h1 | h1
      · exact Or.inl h1
      · exact Or.inr ⟨h1, temp, rfl⟩
    | none =>
      rw [hl] at h
      subst h
      rcases mem_dictKeys_insert series sid k temp hk with h1 | h1
      · exact Or.inl h1
      · exact Or.inr ⟨h1, temp, rfl⟩

theorem accumulateWindow_keys (respOf : String → Json) :
    ∀ (sensors : List String) (series series2 : RawSeries),
      accumulateWindow respOf sensors series = Except.ok series2 →
      ∀ k ∈ dictKeys series2, k ∈ dictKeys series ∨
        ∃ recs, collectEdges (respOf k) = Except.ok recs := by
  intro sensors
  induction sensors with
  | nil =>
    intro series series2 h k hk
    simp only [accumulateWindow, Except.ok.injEq] at h
    subst h
    exact Or.inl hk
  | cons sid rest ih =>
    intro series series2 h k hk
    cases hp : processResponse series sid (respOf sid) with
    | error e => simp [accumulateWindow, hp] at h
    | ok seriesMid =>
      simp only [accumulateWindow, hp] at h
      rcases ih seriesMid series2 h k hk with hmid | hok
      · rcases processResponse_keys series sid (respOf sid) seriesMid hp k hmid with
          h1 | ⟨rfl, hrecs⟩
        · exact Or.inl h1
        · exact Or.inr hrecs
      · exact Or.inr hok

theorem queryLoopAux_keys (respOf : Nat → String → Json) (sensors : List String) :
    ∀ (k m : Nat) (series series2 : RawSeries),
      queryLoopAux respOf sensors m k series = Except.ok series2 →
      ∀ sid ∈ dictKeys series2, sid ∈ dictKeys series ∨
        ∃ j, m ≤ j ∧ j < m + k ∧ ∃ recs, collectEdges (respOf j sid) = Except.ok recs := by
  intro k
  induction k with
  | zero =>
    intro m series series2 h sid hsid
    simp only [queryLoopAux, Except.ok.injEq] at h
    subst h
    exact Or.inl hsid
  | succ k ih =>
    intro m series series2 h sid hsid
    cases hw : accumulateWindow (respOf m) sensors series with
    | error e => simp [queryLoopAux, hw] at h
    | ok seriesMid =>
      simp only [queryLoopAux, hw] at h
      rcases ih (m + 1) seriesMid series2 h sid hsid with hmid | ⟨j, hj1, hj2, hrecs⟩
      · rcases accumulateWindow_keys (respOf m) sensors series seriesMid hw sid hmid with
          h1 | hok
        · exact Or.inl h1
        · exact Or.inr ⟨m, by omega, by omega, hok⟩
      · exact Or.inr ⟨j, by omega, by omega, hrecs⟩

/-- **C7, counterexample.** The claim says a response with *missing or
malformed* substructure never raises: but a response that merely lacks the
`trafficData` key makes the normalisation block raise a `KeyError`, which
the `except TypeError` handler does not catch. -/
theorem C7_normalizer_counterexample :
    processResponse [] "X" (Json.obj [("data", Json.obj [])]) =
      Except.error (PyError.keyError "trafficData") := rfl

/-- **C7, amended.** When the malformed substructure manifests as a
`TypeError` (e.g. a JSON `null` along the expected path — the service's
usual "no data" shape), normalisation does not raise and contributes
nothing for that sensor/window; this outcome is distinguishable from a
well-formed response carrying a volume-0 record, which contributes exactly
one record whose volume is 0.  (Missing keys raise `KeyError` and bad
timestamp strings raise `ValueError`; both propagate.) -/
theorem C7_normalizer_amended (series : RawSeries) (sid : String) (resp : Json)
    (htype : collectEdges resp = Except.error PyError.typeError) :
    processResponse series sid resp = Except.ok series ∧
    collectEdges nullTrafficDataResp = Except.error PyError.typeError ∧
    collectEdges volumeZeroResp = Except.ok [volumeZeroRecord] ∧
    volumeZeroRecord.volume = Json.num 0 ∧
    processResponse [] "X" volumeZeroResp = Except.ok [("X", [volumeZeroRecord])] := by
  refine ⟨?_, rfl, rfl, rfl, rfl⟩
  simp only [processResponse, htype]

/-- Witness for the amended C7 at the `null`-`trafficData` response. -/
theorem C7_normalizer_amended_witness :
    collectEdges nullTrafficDataResp = Except.error PyError.typeError ∧
    (processResponse [] "S" nullTrafficDataResp = Except.ok [] ∧
      collectEdges nullTrafficDataResp = Except.error PyError.typeError ∧
      collectEdges volumeZeroResp = Except.ok [volumeZeroRecord] ∧
      volumeZeroRecord.volume = Json.num 0 ∧
      processResponse [] "X" volumeZeroResp = Except.ok [("X", [volumeZeroRecord])]) :=
  ⟨rfl, C7_normalizer_amended [] "S" nullTrafficDataResp rfl⟩

/-- **C9, counterexample.** The claim says a sensor id is a key only if some
window returned at least one hourly record for it: but a well-formed
response whose `edges` list is empty runs the `else` branch and still
creates the key — here `"A"` is a key of the accumulated series although
every window returned zero records. -/
theorem C9_sensor_key_counterexample :
    queryVolumeLoop (fun _ _ => emptyEdgesResp) ["A"] 1 =
      Except.ok [("A", ([] : List RawRecord))] ∧
    "A" ∈ dictKeys [("A", ([] : List RawRecord))] :=
  ⟨rfl, by simp [dictKeys]⟩

/-- **C9, amended.** In the series accumulated by
`query_traffic_volume_by_hour`, a sensor id is present as a key only if at
least one window's response parsed successfully for that sensor (without
the caught `TypeError`) — possibly with an empty record list, so key
presence does not imply that any hourly record was returned. -/
theorem C9_sensor_key_amended (respOf : Nat → String → Json) (sensors : List String)
    (numWindows : Nat) (series : RawSeries)
    (hrun : queryVolumeLoop respOf sensors numWindows = Except.ok series) :
    ∀ sid ∈ dictKeys series, ∃ m, m < numWindows ∧
      ∃ recs, collectEdges (respOf m sid) = Except.ok recs := by
  intro sid hsid
  rcases queryLoopAux_keys respOf sensors numWindows 0 [] series hrun sid hsid with
    h | ⟨j, hj1, hj2, hrecs⟩
  · simp [dictKeys] at h
  · exact ⟨j, by omega, hrecs⟩

/-- Witness for the amended C9: one sensor, one window with a well-formed
volume-0 response; the key is present and the response indeed parsed. -/
theorem C9_sensor_key_amended_witness :
    queryVolumeLoop (fun _ _ => volumeZeroResp) ["A"] 1 =
      Except.ok [("A", [volumeZeroRecord])] ∧
    (∀ sid ∈ dictKeys [("A", [volumeZeroRecord])], ∃ m, m < 1 ∧
      ∃ recs, collectEdges ((fun _ _ => volumeZeroResp) m sid) = Except.ok recs) :=
  ⟨rfl, C9_sensor_key_amended (fun _ _ => volumeZeroResp) ["A"] 1
    [("A", [volumeZeroRecord])] rfl⟩
